import Mathlib

/-!
# Verification of the booth-manager package & repository index engine

Shallow embedding of `booth_assets_manager/vcc_integration.py` (together
with the `update_package_info` persistence callback from `database.py`),
and proofs of the specification claims about it.

Modelling conventions:
* Python strings are Lean `String`s; character classes and `str.lower`
  are modelled on Unicode code points (`Char.toNat`), which agrees with
  CPython on the ASCII range relevant here.
* The filesystem is modelled explicitly: an item's asset folder is the
  listing `os.walk` would produce plus the `os.listdir` view of its
  `images` subdirectory; the repository root is a record of which
  directories exist, the children of `Packages/`, and the index file.
* Fallible operations (`open` on a missing parent directory, `makedirs`
  clashing with a file) return `Option`; `try/except` blocks in the
  source become matches on those options.
-/

/-- Code point classes of the regex `[^a-zA-Z0-9]` used by `sanitize_id`
(`re.sub(r'[^a-zA-Z0-9]', '', ...)`): ASCII upper-case letters. -/
def isAsciiUpper (c : Char) : Bool := 65 ≤ c.toNat && c.toNat ≤ 90

/-- ASCII lower-case letters, `a`-`z`. -/
def isAsciiLower (c : Char) : Bool := 97 ≤ c.toNat && c.toNat ≤ 122

/-- ASCII digits, `0`-`9`. -/
def isAsciiDigit (c : Char) : Bool := 48 ≤ c.toNat && c.toNat ≤ 57

/-- Membership in the regex class `[a-zA-Z0-9]` of `sanitize_id`. -/
def isAsciiAlnum (c : Char) : Bool := isAsciiUpper c || isAsciiLower c || isAsciiDigit c

/-- `str.lower` on one character (ASCII range, which is all that survives
the `[^a-zA-Z0-9]` strip in `sanitize_id`). -/
def asciiLower (c : Char) : Char :=
  if 65 ≤ c.toNat ∧ c.toNat ≤ 90 then Char.ofNat (c.toNat + 32) else c

/-- `sanitize_id(text)` from `vcc_integration.py` lines 11-23:
`if not text: return "unknown"`, then
`re.sub(r'[^a-zA-Z0-9]', '', text.replace(' ', '.'))` (the space→dot
replacement happens first, on every space), prefix `'a'` when the result
is empty or does not start with a letter (`sanitized[0].isalpha()`,
which on the post-strip ASCII-alphanumeric characters is exactly the
ASCII letter test), and finally `.lower()`. -/
def sanitize_id (text : String) : String :=
  if text = "" then "unknown"
  else
    let replaced := text.toList.map (fun c => if c = ' ' then '.' else c)
    let sanitized := replaced.filter isAsciiAlnum
    let sanitized :=
      if sanitized.isEmpty || !(isAsciiUpper (sanitized.headD 'a') || isAsciiLower (sanitized.headD 'a'))
      then 'a' :: sanitized else sanitized
    String.mk (sanitized.map asciiLower)

/-- One directory visited by `os.walk(item_folder)`: its path relative to
the asset folder (`[]` for the folder itself) and the regular files
directly inside it. The asset folder is presented to the engine as the
full top-down walk listing, exactly the sequence the copy loop of
`create_package_structure` iterates over. -/
structure WalkEntry where
  relPath : List String
  files : List String
deriving DecidableEq, Repr

/-- The readable content of an item's asset folder: the `os.walk`
listing, and the `os.listdir` view of its direct `images` subdirectory
(`none` when `os.path.exists(images_dir)` is false; each entry carries
the name and the `os.path.isfile` flag). Both views are read-only
inputs to the engine. -/
structure AssetFolder where
  path : String := ""
  walk : List WalkEntry := []
  imagesDir : Option (List (String × Bool)) := none
deriving DecidableEq, Repr

/-- An item row as handed to the engine (the dict produced by the
persistence layer). Optional fields model dict keys that may be absent
(`item.get(...)` / `"creator" in item`). `folder` stands for the asset
folder path together with its on-disk content. -/
structure Item where
  item_id : String
  title : Option String := none
  creator : Option String := none
  creator_url : Option String := none
  description : Option String := none
  url : Option String := none
  package_id : Option String := none
  package_version : Option String := none
  is_packaged : Bool := false
  folder : AssetFolder := {}
deriving DecidableEq, Repr

/-- `generate_package_id(item)` from `vcc_integration.py` lines 25-36:
creator defaults to `"booth"` when the `creator` key is absent,
otherwise `sanitize_id(item["creator"])`; title is
`sanitize_id(item.get("title", "item"))`; result is
`f"com.{creator}.{title}.{item_id}"` with the raw item id appended. -/
def generate_package_id (item : Item) : String :=
  let creator := match item.creator with
    | some c => sanitize_id c
    | none => "booth"
  let title := sanitize_id (item.title.getD "item")
  "com." ++ creator ++ "." ++ title ++ "." ++ item.item_id

/-- The spec's identifier invariant `^[a-z][a-z0-9.]*$`: nonempty, first
character an ASCII lower-case letter, remaining characters lower-case
letters, digits or dots. -/
def matchesIdRegex (s : String) : Bool :=
  match s.toList with
  | [] => false
  | c :: cs => isAsciiLower c && cs.all (fun d => isAsciiLower d || isAsciiDigit d || d = '.')

/-- A package manifest as the JSON object it parses back to. Optional
fields model `manifest.get(...)` reads on arbitrary (possibly foreign)
manifests. The always-empty `vpmDependencies` / `legacyFolders` /
`legacyFiles` maps carry no information and are not modelled. -/
structure ParsedManifest where
  name : Option String := none
  displayName : Option String := none
  version : Option String := none
  unity : Option String := none
  description : Option String := none
  authorName : Option String := none
  authorUrl : Option String := none
  url : Option String := none
deriving DecidableEq, Repr

/-- What reading a `package.json` file yields: `parsed` when `json.load`
succeeds and returns an object, `malformed` when it raises
`json.JSONDecodeError`. -/
inductive ManifestFileContent where
  | parsed (m : ParsedManifest)
  | malformed
deriving DecidableEq, Repr

/-- One immediate child of the `Packages/` directory as seen by
`os.listdir`: its name, whether it is a directory, the content of its
`package.json` (when that file exists), the set of paths present inside
it, and the content of its readme. -/
structure PkgDirEntry where
  name : String
  isDir : Bool := true
  manifest : Option ManifestFileContent := none
  contents : List (List String) := []
  readme : Option String := none
deriving DecidableEq, Repr

/-- The versions dict of one index entry and the `packages` dict of the
index, as association lists in Python dict insertion order. -/
abbrev VersionsMap := List (String × ParsedManifest)

/-- The `packages` member of the repository index. -/
abbrev PackagesMap := List (String × VersionsMap)

/-- The content of `index.json` on disk: well-formed JSON with the given
top-level keys and `packages` member, or text that fails to parse
(`json.JSONDecodeError` in `validate_repository`). -/
inductive IndexFileState where
  | validJson (fields : List String) (packages : PackagesMap)
  | invalidJson
deriving DecidableEq, Repr

/-- The mutable state of one repository root: whether the root directory
and `Packages/` exist, the children of `Packages/`, and the index file
(`none` when `index.json` does not exist). -/
structure RepoState where
  rootExists : Bool := false
  packagesDirExists : Bool := false
  packages : List PkgDirEntry := []
  indexFile : Option IndexFileState := none
deriving DecidableEq, Repr

/-- Python `dict` assignment `d[k] = v`: overwrite in place when the key
exists, append otherwise. -/
def dictInsert {α : Type} (k : String) (v : α) : List (String × α) → List (String × α)
  | [] => [(k, v)]
  | (k', v') :: rest => if k' = k then (k, v) :: rest else (k', v') :: dictInsert k v rest

/-- Python `dict` lookup. -/
def lookupA {α : Type} (k : String) : List (String × α) → Option α
  | [] => none
  | (k', v) :: rest => if k' = k then some v else lookupA k rest

/-- Lookup of one manifest in the index's `packages` member. -/
def indexLookup (pkgs : PackagesMap) (n v : String) : Option ParsedManifest :=
  (lookupA n pkgs).bind (fun vs => lookupA v vs)

/-- Loop body of the `Packages/` scan in `generate_repository_index`
(lines 142-161): non-directories are skipped by `os.path.isdir`, a
missing `package.json` is skipped by `os.path.exists`, a
`json.JSONDecodeError` is printed and skipped; otherwise
`package_id = manifest.get("name")` and
`version = manifest.get("version", "1.0.0")` are read and, when
`package_id` is truthy, the manifest is stored under
`packages[package_id]["versions"][version]`. -/
def scanPackageDir (acc : PackagesMap) (e : PkgDirEntry) : PackagesMap :=
  if e.isDir then
    match e.manifest with
    | some (ManifestFileContent.parsed m) =>
      let package_id := m.name.getD ""
      let version := m.version.getD "1.0.0"
      if package_id = "" then acc
      else dictInsert package_id (dictInsert version m ((lookupA package_id acc).getD [])) acc
    | some ManifestFileContent.malformed => acc
    | none => acc
  else acc

/-- The `packages` dict built by scanning the children of `Packages/`. -/
def indexPackages (entries : List PkgDirEntry) : PackagesMap :=
  entries.foldl scanPackageDir []

/-- The top-level keys of the `repo_data` dict literal written by
`generate_repository_index` (lines 132-138). -/
def indexFieldKeys : List String := ["name", "id", "url", "author", "packages"]

/-- The `required_fields` list checked by `validate_repository`
(line 307). -/
def required_fields : List String := ["name", "id", "url", "author", "packages"]

/-- `generate_repository_index(repository_path)` (lines 126-167): builds
`repo_data` fresh (never reading the previous index), scans `Packages/`
only when it exists, and writes `index.json` as a full replacement.
`open(index_path, "w")` raises when the repository root directory does
not exist, which is the `none` case; the metadata values (`repo_name`,
`repo_id`, `repo_author`, the `file:///` url) are constants or derived
from the path and are abstracted to the key list they occupy. -/
def generate_repository_index (st : RepoState) : Option RepoState :=
  if st.rootExists then
    let pkgs := if st.packagesDirExists then indexPackages st.packages else []
    some { st with indexFile := some (IndexFileState.validJson indexFieldKeys pkgs) }
  else none

/-- Python `str.strip()` on both ends (whitespace per the ASCII range
relevant here) followed by the slice `[:500]`, at code-point level. -/
def stripTake500 (s : String) : String :=
  String.mk ((((s.toList.dropWhile Char.isWhitespace).reverse.dropWhile Char.isWhitespace).reverse).take 500)

/-- `create_package_manifest(item)` (lines 38-63) at the default
`version="1.0.0"` (the only version any caller passes): `description` is
`item.get("description", "").strip()[:500]`, the author is
`item.get("creator", "Booth Creator")` / `item.get("creator_url", "")`,
and `url` is a `file:///` url of the item's asset folder path. -/
def create_package_manifest (item : Item) : ParsedManifest :=
  { name := some (generate_package_id item)
    displayName := some (item.title.getD "Booth Item")
    version := some "1.0.0"
    unity := some "2019.4"
    description := some (stripTake500 (item.description.getD ""))
    authorName := some (item.creator.getD "Booth Creator")
    authorUrl := some (item.creator_url.getD "")
    url := some ("file:///" ++ item.folder.path) }

/-- The README.md content written by `create_package_structure`
(lines 111-117): title heading, description, source-url footer. -/
def readmeContent (item : Item) : String :=
  "# " ++ item.title.getD "Booth Item" ++ "\n\n"
    ++ item.description.getD "No description available."
    ++ "\n\nSource: " ++ item.url.getD ""

/-- The `continue` condition of the copy loop (line 84):
`os.path.basename(root) == "images" or root == item_folder`. A relative
path `[]` is the item folder itself; the basename of a deeper directory
is its last component. -/
def skipWalkEntry (e : WalkEntry) : Bool :=
  e.relPath.getLast? = some "images" || e.relPath = []

/-- The `Runtime/<rel_path>` directories created by
`os.makedirs(target_dir, exist_ok=True)` for every non-skipped walked
directory (lines 88-90). -/
def runtimeTargetDirs (walk : List WalkEntry) : List (List String) :=
  (walk.filter (fun e => !skipWalkEntry e)).map (fun e => "Runtime" :: e.relPath)

/-- The files copied into `Runtime/` (lines 93-97): for every
non-skipped walked directory, every file other than `"metadata.json"`,
at its relative position. -/
def runtimeCopies (walk : List WalkEntry) : List (List String) :=
  (walk.filter (fun e => !skipWalkEntry e)).flatMap
    (fun e => (e.files.filter (fun f => f ≠ "metadata.json")).map
      (fun f => "Runtime" :: (e.relPath ++ [f])))

/-- The files copied flat into `Documentation~/images/` (lines 104-109):
when the `images` directory exists, every `os.path.isfile` entry of its
listing. -/
def imagesCopies (imgs : Option (List (String × Bool))) : List String :=
  match imgs with
  | none => []
  | some entries => (entries.filter (fun p => p.2)).map (fun p => p.1)

/-- All paths present inside a freshly materialized package directory,
in the order `create_package_structure` creates them: the `Runtime` and
`Documentation~` standard folders (lines 75-78, note the tilde in
`"Documentation~"` at line 76), the copied runtime tree, the
`Documentation~/images` folder (line 102) and the copied images, then
`README.md` and `package.json`. -/
def buildPaths (item : Item) : List (List String) :=
  [["Runtime"], ["Documentation~"]]
    ++ runtimeTargetDirs item.folder.walk
    ++ runtimeCopies item.folder.walk
    ++ [["Documentation~", "images"]]
    ++ (imagesCopies item.folder.imagesDir).map (fun n => ["Documentation~", "images", n])
    ++ [["README.md"], ["package.json"]]

/-- The package directory entry materialized into a previously absent
`Packages/<pid>` slot. -/
def freshPackageEntry (item : Item) (pid : String) : PkgDirEntry :=
  { name := pid
    isDir := true
    manifest := some (ManifestFileContent.parsed (create_package_manifest item))
    contents := buildPaths item
    readme := some (readmeContent item) }

/-- Re-materializing over an existing package directory: `makedirs` with
`exist_ok=True` and `shutil.copy2` overwrite what they write and leave
every other pre-existing path in place. -/
def listUnion (xs ys : List (List String)) : List (List String) :=
  xs ++ ys.filter (fun y => !(xs.contains y))

/-- `os.listdir`-order search for the child of `Packages/` with the
given name. -/
def findPackage (entries : List PkgDirEntry) (pid : String) : Option PkgDirEntry :=
  entries.find? (fun e => e.name == pid)

/-- Replace the child of `Packages/` with the given name. -/
def replacePackage (entries : List PkgDirEntry) (pid : String) (e' : PkgDirEntry) : List PkgDirEntry :=
  entries.map (fun e => if e.name == pid then e' else e)

/-- Result of `create_package_structure`: the returned
`(package_id, package_dir)` with the updated filesystem, or an
exception part-way (after the parent directories were made). -/
inductive CreateResult where
  | ok (pid : String) (st : RepoState)
  | failed (st : RepoState)
deriving DecidableEq, Repr

/-- `create_package_structure(item, repository_path)` (lines 65-124):
`os.makedirs(package_dir, exist_ok=True)` first creates the repository
root and `Packages/` as parents; if a non-directory already occupies
`Packages/<pid>` the `makedirs` raises (`failed`); otherwise the
standard folders are made, the asset tree and images are copied (new
files overwrite, unrelated pre-existing files survive), and `README.md`
and `package.json` are written, overwriting prior content. -/
def create_package_structure (item : Item) (st : RepoState) : CreateResult :=
  let pid := generate_package_id item
  let st1 := { st with rootExists := true, packagesDirExists := true }
  match findPackage st1.packages pid with
  | some e =>
    if e.isDir then
      let e' := { e with
        manifest := some (ManifestFileContent.parsed (create_package_manifest item))
        contents := listUnion e.contents (buildPaths item)
        readme := some (readmeContent item) }
      CreateResult.ok pid { st1 with packages := replacePackage st1.packages pid e' }
    else CreateResult.failed st1
  | none => CreateResult.ok pid { st1 with packages := st1.packages ++ [freshPackageEntry item pid] }

/-- The persistence layer: the item rows, in table order. -/
abbrev Db := List Item

/-- `session.query(Item).filter_by(item_id=item_id).first()`. -/
def dbLookup (db : Db) (item_id : String) : Option Item :=
  db.find? (fun r => r.item_id == item_id)

/-- `Database.update_package_info` (`database.py` lines 185-202): the
first row matching `item_id`, if any, gets its `package_id`,
`is_packaged` and `package_version` columns overwritten (the
`last_packaged` wall-clock timestamp is not modelled); a missing row is
a silent no-op for the callers here, which ignore the returned bool. -/
def update_package_info (db : Db) (item_id : String) (package_id : Option String)
    (package_version : Option String) (is_packaged : Bool) : Db :=
  match db with
  | [] => []
  | r :: rest =>
    if r.item_id == item_id then
      { r with package_id := package_id, package_version := package_version,
               is_packaged := is_packaged } :: rest
    else r :: update_package_info rest item_id package_id package_version is_packaged

/-- Result of a lifecycle operation: the returned bool and the
filesystem and database afterwards. -/
structure OpResult where
  ok : Bool
  st : RepoState
  db : Db
deriving DecidableEq, Repr

/-- `package_item(item, repository_path, db)` (lines 199-219). `none`
models a falsy `item` argument. Everything after the guard runs inside
one `try`: materialize, `db.update_package_info(item_id, pid, "1.0.0")`,
index rebuild, then a success `print` that subscripts `item['title']` —
when the `title` key is absent that last line raises `KeyError` and the
handler returns `False`, the side effects all having already
happened. -/
def package_item (item : Option Item) (st : RepoState) (db : Db) : OpResult :=
  match item with
  | none => ⟨false, st, db⟩
  | some it =>
    match create_package_structure it st with
    | CreateResult.failed st1 => ⟨false, st1, db⟩
    | CreateResult.ok pid st1 =>
      let db1 := update_package_info db it.item_id (some pid) (some "1.0.0") true
      match generate_repository_index st1 with
      | none => ⟨false, st1, db1⟩
      | some st2 => ⟨it.title.isSome, st2, db1⟩

/-- `unpackage_item(item, repository_path, db)` (lines 221-247): falsy
`item` or falsy `item.get("package_id")` return `False` before any side
effect; otherwise the package directory is removed when present
(`shutil.rmtree` on a non-directory raises before any update), the
persisted identity is cleared via
`db.update_package_info(item_id, None, None, False)`, the index is
rebuilt, and the success `print` subscripts `item['title']` exactly as
in `package_item`. -/
def unpackage_item (item : Option Item) (st : RepoState) (db : Db) : OpResult :=
  match item with
  | none => ⟨false, st, db⟩
  | some it =>
    let pid := it.package_id.getD ""
    if pid = "" then ⟨false, st, db⟩
    else
      let removable := match findPackage st.packages pid with
        | some e => e.isDir
        | none => true
      if removable then
        let st1 := { st with packages := st.packages.filter (fun p => !(p.name == pid)) }
        let db1 := update_package_info db it.item_id none none false
        match generate_repository_index st1 with
        | none => ⟨false, st1, db1⟩
        | some st2 => ⟨it.title.isSome, st2, db1⟩
      else ⟨false, st, db⟩

/-- The issue messages `validate_repository` can append (lines 267-325),
identified by kind; the `*Failed` members are the `except` arms of the
repair attempts, reachable only through real I/O failures, which this
model (as claim C7 does) assumes away. -/
inductive VIssue where
  | rootMissing
  | rootCreateFailed
  | packagesMissing
  | packagesCreateFailed
  | indexMissing
  | indexGenerationFailed
  | indexMissingFields (missing : List String)
  | indexNotJson
deriving DecidableEq, Repr

/-- The fix messages `validate_repository` can append. -/
inductive VFix where
  | createdRoot
  | createdPackages
  | generatedIndex
  | regeneratedIndexFields
  | regeneratedIndexJson
deriving DecidableEq, Repr

/-- The dict returned by `validate_repository` (lines 327-331). -/
structure ValidationResult where
  valid : Bool
  issues : List VIssue
  fixes : List VFix
deriving DecidableEq, Repr

/-- `validate_repository(repository_path)` (lines 267-331), under the
no-I/O-failure assumption: create the root when missing, create
`Packages/` when missing, regenerate the index when missing / not JSON
/ missing one of `required_fields`; `valid` is
`len(issues) == 0 or len(fixes) == len(issues)`. -/
def validate_repository (st : RepoState) : ValidationResult × RepoState :=
  let (i1, f1, st1) :=
    if st.rootExists then ([], [], st)
    else ([VIssue.rootMissing], [VFix.createdRoot], { st with rootExists := true })
  let (i2, f2, st2) :=
    if st1.packagesDirExists then ([], [], st1)
    else ([VIssue.packagesMissing], [VFix.createdPackages], { st1 with packagesDirExists := true })
  let (i3, f3, st3) :=
    match st2.indexFile with
    | none =>
      match generate_repository_index st2 with
      | some st' => ([VIssue.indexMissing], [VFix.generatedIndex], st')
      | none => ([VIssue.indexMissing, VIssue.indexGenerationFailed], [], st2)
    | some IndexFileState.invalidJson =>
      match generate_repository_index st2 with
      | some st' => ([VIssue.indexNotJson], [VFix.regeneratedIndexJson], st')
      | none => ([VIssue.indexNotJson, VIssue.indexGenerationFailed], [], st2)
    | some (IndexFileState.validJson fields _) =>
      let missing := required_fields.filter (fun f => !(fields.contains f))
      if missing.isEmpty then ([], [], st2)
      else
        match generate_repository_index st2 with
        | some st' => ([VIssue.indexMissingFields missing], [VFix.regeneratedIndexFields], st')
        | none => ([VIssue.indexMissingFields missing, VIssue.indexGenerationFailed], [], st2)
  let issues := i1 ++ i2 ++ i3
  let fixes := f1 ++ f2 ++ f3
  ({ valid := issues.length == 0 || fixes.length == issues.length,
     issues := issues, fixes := fixes }, st3)

/-- The end-to-end scenario item of the spec: id `"100"`, title
`"Cool Prop"`, no creator, an asset folder holding a top-level
`model.fbx` and an `images/preview.png`. -/
def coolPropItem : Item :=
  { item_id := "100", title := some "Cool Prop",
    folder := { path := "/tmp/100",
                walk := [⟨[], ["model.fbx"]⟩],
                imagesDir := some [("preview.png", true)] } }

/-- A manifest file that parses successfully as JSON but whose `name`
member is the empty string. -/
def emptyNameManifest : ParsedManifest :=
  { name := some "", version := some "1.0.0", displayName := some "orphan" }

/-- A package directory carrying `emptyNameManifest`. -/
def emptyNameEntry : PkgDirEntry :=
  { name := "orphan-dir", manifest := some (ManifestFileContent.parsed emptyNameManifest) }

/-- A repository whose `Packages/` holds only `emptyNameEntry`, with a
stale index entry left over from a removed package. -/
def emptyNameRepo : RepoState :=
  { rootExists := true, packagesDirExists := true,
    packages := [emptyNameEntry],
    indexFile := some (IndexFileState.validJson indexFieldKeys
      [("com.booth.removed.1", [("1.0.0", { name := some "com.booth.removed.1" })])]) }

/-- An item whose id is the single upper-case letter `A` (title and
creator keys absent). -/
def upperIdItem : Item := { item_id := "A" }

/-- The repository state `create_package_structure` produces for
`coolPropItem` on an empty repository root. -/
def coolPropRepoAfterCreate : RepoState :=
  { rootExists := true, packagesDirExists := true,
    packages := [freshPackageEntry coolPropItem "com.booth.coolprop.100"],
    indexFile := none }

/-- A package directory whose manifest file raises
`json.JSONDecodeError`. -/
def brokenEntry : PkgDirEntry :=
  { name := "broken", manifest := some ManifestFileContent.malformed }

/-- A repository holding one nameless-manifest directory and one
malformed-manifest directory. -/
def c8Repo : RepoState :=
  { rootExists := true, packagesDirExists := true,
    packages := [emptyNameEntry] ++ brokenEntry :: [],
    indexFile := none }

/-- The `(name, version, manifest)` triple an entry contributes to the
index, when any: a directory with a manifest that parses as an object
and has a truthy `name`. -/
def entryKey (e : PkgDirEntry) : Option (String × String × ParsedManifest) :=
  if e.isDir then
    match e.manifest with
    | some (ManifestFileContent.parsed m) =>
      if m.name.getD "" = "" then none
      else some (m.name.getD "", m.version.getD "1.0.0", m)
    | some ManifestFileContent.malformed => none
    | none => none
  else none

/-- The manifests that parse successfully and carry a non-empty name,
in scan order, with their index keys. -/
def namedManifests (entries : List PkgDirEntry) : List (String × String × ParsedManifest) :=
  entries.filterMap entryKey

/-- The claim's scenario: `package_item`, then `unpackage_item` on the
item re-read from the database (so it carries the recorded package
identity), then `package_item` on the re-read item again. -/
def roundTrip (it : Item) (st : RepoState) (db : Db) : OpResult × OpResult × OpResult :=
  let r1 := package_item (some it) st db
  let r2 := unpackage_item (dbLookup r1.db it.item_id) r1.st r1.db
  let r3 := package_item (dbLookup r2.db it.item_id) r2.st r2.db
  (r1, r2, r3)

example : sanitize_id "Cool Prop" = "coolprop" := by decide
example : sanitize_id "" = "unknown" := by decide
example : sanitize_id "9lives!" = "a9lives" := by decide
example : generate_package_id { item_id := "100", title := some "Cool Prop" } = "com.booth.coolprop.100" := by decide
example : generate_package_id upperIdItem = "com.booth.item.A" := by decide
example : matchesIdRegex "com.booth.coolprop.100" = true := by decide
example : matchesIdRegex "com.booth.item.A" = false := by decide

/-! ## Helper lemmas -/

theorem toNat_ofNat_of_valid {n : Nat} (h : n.isValidChar) : (Char.ofNat n).toNat = n := by
  simp only [Char.ofNat, dif_pos h]
  rfl

/-- A character that survives the `[^a-zA-Z0-9]` strip is, after
`.lower()`, an ASCII lower-case letter or a digit. -/
theorem asciiLower_of_alnum {c : Char} (h : isAsciiAlnum c = true) :
    (isAsciiLower (asciiLower c) || isAsciiDigit (asciiLower c)) = true := by
  simp only [isAsciiAlnum, isAsciiUpper, isAsciiLower, isAsciiDigit, Bool.or_eq_true,
    Bool.and_eq_true, decide_eq_true_eq] at h
  unfold asciiLower
  by_cases hc : 65 ≤ c.toNat ∧ c.toNat ≤ 90
  · rw [if_pos hc]
    have hv : (c.toNat + 32).isValidChar := Or.inl (by omega)
    simp only [isAsciiLower, isAsciiDigit, toNat_ofNat_of_valid hv, Bool.or_eq_true,
      Bool.and_eq_true, decide_eq_true_eq]
    omega
  · rw [if_neg hc]
    simp only [isAsciiLower, isAsciiDigit, Bool.or_eq_true, Bool.and_eq_true,
      decide_eq_true_eq]
    omega

/-- Every character of a `sanitize_id` result is an ASCII lower-case
letter or a digit. -/
theorem sanitize_id_chars (t : String) :
    (sanitize_id t).toList.all (fun c => isAsciiLower c || isAsciiDigit c) = true := by
  unfold sanitize_id
  by_cases ht : t = ""
  · rw [if_pos ht]; decide
  · rw [if_neg ht]
    have hmk : ∀ l : List Char, (String.mk l).toList = l := fun l => rfl
    rw [hmk, List.all_map]
    rw [List.all_eq_true]
    intro c hc
    have halnum : isAsciiAlnum c = true ∨ c = 'a' := by
      by_cases hpre : ((t.toList.map (fun c => if c = ' ' then '.' else c)).filter isAsciiAlnum).isEmpty
          || !(isAsciiUpper ((((t.toList.map (fun c => if c = ' ' then '.' else c)).filter isAsciiAlnum)).headD 'a')
               || isAsciiLower ((((t.toList.map (fun c => if c = ' ' then '.' else c)).filter isAsciiAlnum)).headD 'a'))
      · rw [if_pos hpre] at hc
        rcases List.mem_cons.1 hc with h | h
        · right; exact h
        · left; exact (List.mem_filter.1 h).2
      · rw [if_neg hpre] at hc
        left; exact (List.mem_filter.1 hc).2
    rcases halnum with h | h
    · exact asciiLower_of_alnum h
    · subst h; decide


theorem all_idTail_of_all_san (l : List Char)
    (hl : l.all (fun d => isAsciiLower d || isAsciiDigit d) = true) :
    l.all (fun d => isAsciiLower d || isAsciiDigit d || d = '.') = true := by
  rw [List.all_eq_true] at hl ⊢
  intro d hd
  have := hl d hd
  simp only [Bool.or_eq_true] at this ⊢
  tauto

/-- Composing `com.`, two sanitized components and a well-behaved item
id yields a string in the identifier language. -/
theorem matchesIdRegex_com (a b c : String)
    (ha : a.toList.all (fun d => isAsciiLower d || isAsciiDigit d) = true)
    (hb : b.toList.all (fun d => isAsciiLower d || isAsciiDigit d) = true)
    (hc : c.toList.all (fun d => isAsciiLower d || isAsciiDigit d || d = '.') = true) :
    matchesIdRegex ("com." ++ a ++ "." ++ b ++ "." ++ c) = true := by
  have hlist : ("com." ++ a ++ "." ++ b ++ "." ++ c).toList
      = 'c' :: ('o' :: 'm' :: '.' :: (a.toList ++ '.' :: (b.toList ++ '.' :: c.toList))) := by
    show ("com." ++ a ++ "." ++ b ++ "." ++ c).data
      = 'c' :: ('o' :: 'm' :: '.' :: (a.data ++ '.' :: (b.data ++ '.' :: c.data)))
    simp [String.data_append]
  unfold matchesIdRegex
  rw [hlist]
  simp only [List.all_cons, List.all_append, Bool.and_eq_true, Bool.or_eq_true]
  refine ⟨by decide, by decide, by decide, by decide, ?_, ⟨by decide, ?_, by decide, ?_⟩⟩
  · exact all_idTail_of_all_san _ ha
  · exact all_idTail_of_all_san _ hb
  · exact hc

/-! ## C6 -/

/-- C6 (amended): for every combination of inputs (creator possibly
absent or empty, title possibly absent, empty or arbitrary garbage),
identifier derivation is a total function (never throws), and provided
the item id consists only of lower-case letters, digits and dots, the
result matches `^[a-z][a-z0-9.]*$`. (As stated over arbitrary item-id
strings the claim is false: the raw item id is appended unsanitized,
see the counterexample.) -/
theorem c6_identifier_matches_regex (item : Item)
    (hid : item.item_id.toList.all (fun d => isAsciiLower d || isAsciiDigit d || d = '.') = true) :
    matchesIdRegex (generate_package_id item) = true := by
  cases hcr : item.creator with
  | none =>
    simp only [generate_package_id, hcr]
    exact matchesIdRegex_com "booth" _ _ (by decide) (sanitize_id_chars _) hid
  | some c =>
    simp only [generate_package_id, hcr]
    exact matchesIdRegex_com _ _ _ (sanitize_id_chars c) (sanitize_id_chars _) hid

/-- C6 (counterexample): the item id is appended raw, so the id `"A"`
(title and creator absent) yields `com.booth.item.A`, which does not
match `^[a-z][a-z0-9.]*$`; the claim as stated over every string item
id is false. -/
theorem c6_counterexample :
    generate_package_id upperIdItem = "com.booth.item.A" ∧
    matchesIdRegex (generate_package_id upperIdItem) = false := by decide

/-- Witness for C6: the amended theorem applied to the end-to-end item. -/
theorem c6_witness :
    coolPropItem.item_id.toList.all (fun d => isAsciiLower d || isAsciiDigit d || d = '.') = true ∧
    matchesIdRegex (generate_package_id coolPropItem) = true :=
  ⟨by decide, c6_identifier_matches_regex coolPropItem (by decide)⟩

/-! ## C1 and C2 -/

set_option maxRecDepth 8192

/-- C1: the copy loop of `create_package_structure` skips the walk
entry with `root == item_folder`, so a top-level `model.fbx` is never
copied: packaging the end-to-end item succeeds, materializes exactly
one package directory, and that directory does not contain
`Runtime/model.fbx` (contradicting the claim and spec, and the code's
own comment, which only announces skipping `images` and
`metadata.json`). -/
theorem c1_top_level_file_not_copied :
    (package_item (some coolPropItem) {} [coolPropItem]).ok = true ∧
    (package_item (some coolPropItem) {} [coolPropItem]).st.packages =
      [freshPackageEntry coolPropItem "com.booth.coolprop.100"] ∧
    ¬ ["Runtime", "model.fbx"] ∈ (freshPackageEntry coolPropItem "com.booth.coolprop.100").contents := by
  decide

/-- C2: `sanitize_id` replaces spaces by dots and then immediately
strips the dots with `re.sub(r'[^a-zA-Z0-9]', '', ...)`, so the claimed
identifier `com.booth.cool.prop.100` is wrong: the item with id
`"100"`, creator absent, title `"Cool Prop"` derives
`com.booth.coolprop.100`, and that is the key of the rebuilt index. -/
theorem c2_space_segments_lost :
    generate_package_id coolPropItem = "com.booth.coolprop.100" ∧
    generate_package_id coolPropItem ≠ "com.booth.cool.prop.100" ∧
    (package_item (some coolPropItem) {} [coolPropItem]).st.indexFile =
      some (IndexFileState.validJson indexFieldKeys
        [("com.booth.coolprop.100", [("1.0.0", create_package_manifest coolPropItem)])]) := by
  decide

/-! ## C5 -/

theorem mem_listUnion_right (xs ys : List (List String)) (y : List String) (h : y ∈ ys) :
    y ∈ listUnion xs ys := by
  unfold listUnion
  by_cases hy : y ∈ xs
  · exact List.mem_append_left _ hy
  · refine List.mem_append_right _ (List.mem_filter.2 ⟨h, ?_⟩)
    have hc : xs.contains y = false := by
      simp only [List.contains, List.elem_eq_mem, decide_eq_false_iff_not]
      exact hy
    simp only [hc, Bool.not_false]

theorem findPackage_append_of_none (l l2 : List PkgDirEntry) (pid : String)
    (h : findPackage l pid = none) :
    findPackage (l ++ l2) pid = findPackage l2 pid := by
  unfold findPackage at *
  rw [List.find?_append, h, Option.none_or]

theorem findPackage_replacePackage (l : List PkgDirEntry) (pid : String) (e e' : PkgDirEntry)
    (h : findPackage l pid = some e) (hname : e'.name = e.name) :
    findPackage (replacePackage l pid e') pid = some e' := by
  induction l with
  | nil => simp [findPackage] at h
  | cons a as ih =>
    by_cases ha : (a.name == pid) = true
    · have he : a = e := by
        unfold findPackage at h
        simp only [List.find?, ha] at h
        exact Option.some_inj.1 h
      have he' : (e'.name == pid) = true := by
        rw [hname, ← he]; exact ha
      unfold findPackage replacePackage
      simp only [List.map_cons, if_pos ha, List.find?, he']
    · have h' : findPackage as pid = some e := by
        unfold findPackage at h ⊢
        simpa only [List.find?, ha] using h
      unfold findPackage replacePackage at ih ⊢
      rw [List.map_cons, if_neg ha,
        List.find?_cons_of_neg (p := fun x : PkgDirEntry => x.name == pid) _ ha]
      exact ih h'

theorem mem_buildPaths_image (item : Item) (imgs : List (String × Bool)) (n : String)
    (himgs : item.folder.imagesDir = some imgs) (hn : (n, true) ∈ imgs) :
    ["Documentation~", "images", n] ∈ buildPaths item := by
  unfold buildPaths
  have hmem : n ∈ imagesCopies item.folder.imagesDir := by
    rw [himgs]
    unfold imagesCopies
    exact List.mem_map.2 ⟨(n, true), List.mem_filter.2 ⟨hn, rfl⟩, rfl⟩
  simp only [List.mem_append]
  refine Or.inl (Or.inr ?_)
  exact List.mem_map.2 ⟨n, hmem, rfl⟩

theorem mem_buildPaths_layout (item : Item) :
    ["Runtime"] ∈ buildPaths item ∧ ["Documentation~"] ∈ buildPaths item ∧
    ["README.md"] ∈ buildPaths item ∧ ["package.json"] ∈ buildPaths item := by
  unfold buildPaths
  refine ⟨?_, ?_, ?_, ?_⟩ <;> simp

/-- C5 (counterexample): the documentation folder is created as
`Documentation~` (line 76 of the source), not `Documentation`:
materializing the end-to-end item produces a package directory that
contains `Documentation~/images/preview.png` and no path starting with
`Documentation`, so `Documentation/images/preview.png` does not
exist. -/
theorem c5_counterexample :
    create_package_structure coolPropItem {} =
      CreateResult.ok "com.booth.coolprop.100" coolPropRepoAfterCreate ∧
    ¬ ["Documentation"] ∈ (freshPackageEntry coolPropItem "com.booth.coolprop.100").contents ∧
    ¬ ["Documentation", "images", "preview.png"] ∈
        (freshPackageEntry coolPropItem "com.booth.coolprop.100").contents ∧
    ["Documentation~", "images", "preview.png"] ∈
        (freshPackageEntry coolPropItem "com.booth.coolprop.100").contents := by
  decide

/-- C5 (amended): materializing a package creates the on-disk layout
`Packages/<identifier>/{Runtime/, Documentation~/, README.md,
package.json}`, and when an `images` folder exists directly under the
asset folder, every regular file in it is copied flatly into
`Documentation~/images/` (the spec's `Documentation/` is actually
spelled `Documentation~` on disk). -/
theorem c5_materialized_layout (item : Item) (st : RepoState) (pid : String) (st' : RepoState)
    (imgs : List (String × Bool)) (n : String)
    (hok : create_package_structure item st = CreateResult.ok pid st')
    (himgs : item.folder.imagesDir = some imgs)
    (hn : (n, true) ∈ imgs) :
    ∃ e, findPackage st'.packages pid = some e ∧
      ["Runtime"] ∈ e.contents ∧ ["Documentation~"] ∈ e.contents ∧
      ["README.md"] ∈ e.contents ∧ ["package.json"] ∈ e.contents ∧
      ["Documentation~", "images", n] ∈ e.contents := by
  obtain ⟨hR, hD, hrm, hpj⟩ := mem_buildPaths_layout item
  have himg := mem_buildPaths_image item imgs n himgs hn
  cases hfind : findPackage st.packages (generate_package_id item) with
  | none =>
    simp only [create_package_structure, hfind] at hok
    obtain ⟨hpid, hst⟩ := CreateResult.ok.inj hok
    subst hpid hst
    refine ⟨freshPackageEntry item (generate_package_id item), ?_, hR, hD, hrm, hpj, himg⟩
    show findPackage (st.packages ++ [freshPackageEntry item (generate_package_id item)]) _ = _
    rw [findPackage_append_of_none _ _ _ hfind]
    simp [findPackage, List.find?, freshPackageEntry]
  | some e0 =>
    by_cases hdir : e0.isDir = true
    · simp only [create_package_structure, hfind, hdir, if_true] at hok
      obtain ⟨hpid, hst⟩ := CreateResult.ok.inj hok
      subst hpid hst
      refine ⟨_, findPackage_replacePackage st.packages _ e0 _ hfind rfl, ?_, ?_, ?_, ?_, ?_⟩
      all_goals exact mem_listUnion_right _ _ _ (by assumption)
    · simp only [create_package_structure, hfind, hdir] at hok
      simp at hok

/-- Witness for C5: the amended theorem applied to the end-to-end item
in an empty repository. -/
theorem c5_witness :
    (create_package_structure coolPropItem {} =
      CreateResult.ok "com.booth.coolprop.100" coolPropRepoAfterCreate ∧
     coolPropItem.folder.imagesDir = some [("preview.png", true)] ∧
     ("preview.png", true) ∈ [("preview.png", true)]) ∧
    (∃ e, findPackage coolPropRepoAfterCreate.packages "com.booth.coolprop.100" = some e ∧
      ["Runtime"] ∈ e.contents ∧ ["Documentation~"] ∈ e.contents ∧
      ["README.md"] ∈ e.contents ∧ ["package.json"] ∈ e.contents ∧
      ["Documentation~", "images", "preview.png"] ∈ e.contents) :=
  ⟨⟨by decide, rfl, by decide⟩,
   c5_materialized_layout coolPropItem {} "com.booth.coolprop.100" _ [("preview.png", true)]
     "preview.png" (by decide) rfl (by decide)⟩

/-! ## C9 -/

/-- C9: for every item that is not marked packaged with a non-empty
package identifier (`item.get("package_id")` falsy, i.e. the key is
absent/null or the empty string), `unpackage_item` returns `False`
without raising and performs no side effect: the filesystem state and
the database are returned untouched (no directory removal, no
`update_package_info` call, no index rebuild). -/
theorem c9_unpackage_no_op_without_package_id (it : Item) (st : RepoState) (db : Db)
    (h : it.package_id = none ∨ it.package_id = some "") :
    unpackage_item (some it) st db = ⟨false, st, db⟩ := by
  unfold unpackage_item
  rcases h with h | h <;> simp [h]

/-- Witness for C9: an unpackaged item in an arbitrary small state. -/
theorem c9_witness :
    (upperIdItem.package_id = none ∨ upperIdItem.package_id = some "") ∧
    unpackage_item (some upperIdItem) coolPropRepoAfterCreate [upperIdItem] =
      ⟨false, coolPropRepoAfterCreate, [upperIdItem]⟩ :=
  ⟨Or.inl rfl,
   c9_unpackage_no_op_without_package_id upperIdItem coolPropRepoAfterCreate [upperIdItem]
     (Or.inl rfl)⟩

/-! ## C8 and C10 -/

theorem scanPackageDir_skip_unreadable (acc : PackagesMap) (e : PkgDirEntry)
    (h : e.manifest = none ∨ e.manifest = some ManifestFileContent.malformed) :
    scanPackageDir acc e = acc := by
  unfold scanPackageDir
  rcases h with h | h <;> rw [h] <;> cases hd : e.isDir <;> simp

theorem scanPackageDir_skip_nameless (acc : PackagesMap) (e : PkgDirEntry) (m : ParsedManifest)
    (hm : e.manifest = some (ManifestFileContent.parsed m))
    (hname : m.name = none ∨ m.name = some "") :
    scanPackageDir acc e = acc := by
  unfold scanPackageDir
  rw [hm]
  rcases hname with h | h <;> cases hd : e.isDir <;> simp [h]

theorem indexPackages_skip (front back : List PkgDirEntry) (e : PkgDirEntry)
    (hskip : ∀ acc, scanPackageDir acc e = acc) :
    indexPackages (front ++ e :: back) = indexPackages (front ++ back) := by
  unfold indexPackages
  rw [List.foldl_append, List.foldl_append, List.foldl_cons, hskip]

/-- C8: during an index rebuild, a package directory whose manifest
file is missing or fails to parse is excluded from the resulting index
and never aborts the rebuild: scanning continues over the remaining
directories and the index file is written (the rebuild returns `some`
and the written `packages` map is exactly the one obtained without the
broken directory). -/
theorem c8_unreadable_manifest_skipped (st : RepoState) (front back : List PkgDirEntry)
    (e : PkgDirEntry)
    (hroot : st.rootExists = true) (hpkgs : st.packagesDirExists = true)
    (_hdirE : e.isDir = true)
    (hbad : e.manifest = none ∨ e.manifest = some ManifestFileContent.malformed) :
    generate_repository_index { st with packages := front ++ e :: back } =
      some { st with
             packages := front ++ e :: back,
             indexFile := some (IndexFileState.validJson indexFieldKeys
                             (indexPackages (front ++ back))) } := by
  have hidx := indexPackages_skip front back e (fun acc => scanPackageDir_skip_unreadable acc e hbad)
  simp [generate_repository_index, hroot, hpkgs, hidx]

/-- Witness for C8: a repository with a nameless-manifest directory in
front and a malformed-manifest directory behind; the rebuilt index is
the one computed without the malformed directory. -/
theorem c8_witness :
    (c8Repo.rootExists = true ∧ c8Repo.packagesDirExists = true ∧ brokenEntry.isDir = true ∧
     brokenEntry.manifest = some ManifestFileContent.malformed) ∧
    generate_repository_index { c8Repo with packages := [emptyNameEntry] ++ brokenEntry :: [] } =
      some { c8Repo with
             packages := [emptyNameEntry] ++ brokenEntry :: [],
             indexFile := some (IndexFileState.validJson indexFieldKeys
                             (indexPackages ([emptyNameEntry] ++ []))) } :=
  ⟨⟨rfl, rfl, rfl, rfl⟩,
   c8_unreadable_manifest_skipped c8Repo [emptyNameEntry] [] brokenEntry
     rfl rfl rfl (Or.inr rfl)⟩

/-- C10: during an index rebuild, a manifest that parses as JSON but
whose `name` member is missing or empty is silently omitted: the scan
continues and the index file is still written, identical to the index
computed without that directory. -/
theorem c10_nameless_manifest_omitted (st : RepoState) (front back : List PkgDirEntry)
    (e : PkgDirEntry) (m : ParsedManifest)
    (hroot : st.rootExists = true) (hpkgs : st.packagesDirExists = true)
    (_hdirE : e.isDir = true)
    (hm : e.manifest = some (ManifestFileContent.parsed m))
    (hname : m.name = none ∨ m.name = some "") :
    generate_repository_index { st with packages := front ++ e :: back } =
      some { st with
             packages := front ++ e :: back,
             indexFile := some (IndexFileState.validJson indexFieldKeys
                             (indexPackages (front ++ back))) } := by
  have hidx := indexPackages_skip front back e
    (fun acc => scanPackageDir_skip_nameless acc e m hm hname)
  simp [generate_repository_index, hroot, hpkgs, hidx]

/-- Witness for C10: the empty-name manifest directory is omitted from
the rebuilt index. -/
theorem c10_witness :
    (emptyNameRepo.rootExists = true ∧ emptyNameRepo.packagesDirExists = true ∧
     emptyNameEntry.isDir = true ∧
     emptyNameEntry.manifest = some (ManifestFileContent.parsed emptyNameManifest) ∧
     emptyNameManifest.name = some "") ∧
    generate_repository_index { emptyNameRepo with packages := [] ++ emptyNameEntry :: [] } =
      some { emptyNameRepo with
             packages := [] ++ emptyNameEntry :: [],
             indexFile := some (IndexFileState.validJson indexFieldKeys
                             (indexPackages ([] ++ []))) } :=
  ⟨⟨rfl, rfl, rfl, rfl, rfl⟩,
   c10_nameless_manifest_omitted emptyNameRepo [] [] emptyNameEntry emptyNameManifest
     rfl rfl rfl rfl (Or.inr rfl)⟩

/-! ## C7 -/

/-- C7: running validation (which always repairs) on a non-existent
repository root — nothing beneath it existing either — creates the
root, creates `Packages/`, and generates an index file that is valid
JSON and carries every required top-level field
(`name, id, url, author, packages`); the result is reported valid, and
a second validation immediately afterwards reports zero issues and
`valid = True`. -/
theorem c7_validate_repairs_missing_root (st : RepoState)
    (h1 : st.rootExists = false) (h2 : st.packagesDirExists = false)
    (h3 : st.packages = []) (h4 : st.indexFile = none) :
    (validate_repository st).1.valid = true ∧
    (validate_repository st).2.rootExists = true ∧
    (validate_repository st).2.packagesDirExists = true ∧
    (validate_repository st).2.indexFile = some (IndexFileState.validJson indexFieldKeys []) ∧
    required_fields.all (fun f => indexFieldKeys.contains f) = true ∧
    (validate_repository (validate_repository st).2).1.issues = [] ∧
    (validate_repository (validate_repository st).2).1.valid = true := by
  obtain ⟨a, b, c, d⟩ := st
  simp only at h1 h2 h3 h4
  subst h1 h2 h3 h4
  decide

/-- Witness for C7: the empty state. -/
theorem c7_witness :
    (({} : RepoState).rootExists = false ∧ ({} : RepoState).packagesDirExists = false ∧
     ({} : RepoState).packages = [] ∧ ({} : RepoState).indexFile = none) ∧
    ((validate_repository {}).1.valid = true ∧
     (validate_repository {}).2.rootExists = true ∧
     (validate_repository {}).2.packagesDirExists = true ∧
     (validate_repository {}).2.indexFile = some (IndexFileState.validJson indexFieldKeys []) ∧
     required_fields.all (fun f => indexFieldKeys.contains f) = true ∧
     (validate_repository (validate_repository {}).2).1.issues = [] ∧
     (validate_repository (validate_repository {}).2).1.valid = true) :=
  ⟨⟨rfl, rfl, rfl, rfl⟩, c7_validate_repairs_missing_root {} rfl rfl rfl rfl⟩

/-! ## C3 -/

theorem lookupA_dictInsert_self {α : Type} (k : String) (v : α) (d : List (String × α)) :
    lookupA k (dictInsert k v d) = some v := by
  induction d with
  | nil => simp [dictInsert, lookupA]
  | cons p rest ih =>
    obtain ⟨k', v'⟩ := p
    unfold dictInsert
    by_cases hk : k' = k
    · simp [lookupA, hk]
    · simp only [if_neg hk]
      unfold lookupA
      simp only [if_neg hk]
      exact ih

theorem lookupA_dictInsert_other {α : Type} (k k' : String) (v : α) (d : List (String × α))
    (h : k ≠ k') :
    lookupA k (dictInsert k' v d) = lookupA k d := by
  have hne : ¬ k' = k := fun hh => h hh.symm
  induction d with
  | nil => simp [dictInsert, lookupA, hne]
  | cons p rest ih =>
    obtain ⟨k0, v0⟩ := p
    by_cases hk : k0 = k'
    · subst hk
      simp [dictInsert, lookupA, hne]
    · by_cases h0 : k0 = k
      · simp [dictInsert, lookupA, hk, h0, h]
      · simp [dictInsert, lookupA, hk, h0, h, ih]

theorem scanPackageDir_eq_entryKey (acc : PackagesMap) (e : PkgDirEntry) :
    scanPackageDir acc e =
      match entryKey e with
      | none => acc
      | some (n, v, m) => dictInsert n (dictInsert v m ((lookupA n acc).getD [])) acc := by
  unfold scanPackageDir entryKey
  cases hd : e.isDir
  · simp
  · simp only [if_true]
    cases hm : e.manifest with
    | none => simp
    | some c =>
      cases c with
      | malformed => simp
      | parsed m =>
        by_cases hname : m.name.getD "" = ""
        · simp [hname]
        · simp [hname]

theorem indexPackages_append_singleton (l : List PkgDirEntry) (e : PkgDirEntry) :
    indexPackages (l ++ [e]) = scanPackageDir (indexPackages l) e := by
  unfold indexPackages
  rw [List.foldl_append]
  rfl

/-- Characterization of the rebuilt `packages` map: when the named
manifests carry pairwise distinct `(name, version)` keys, the map
contains exactly the parsed, non-empty-named manifests under their
name and version. -/
theorem indexLookup_indexPackages (entries : List PkgDirEntry) (n v : String) (m : ParsedManifest) :
    (namedManifests entries).Pairwise (fun a b => a.1 ≠ b.1 ∨ a.2.1 ≠ b.2.1) →
    (indexLookup (indexPackages entries) n v = some m ↔ (n, v, m) ∈ namedManifests entries) := by
  induction entries using List.reverseRecOn with
  | nil =>
    intro _
    simp [indexPackages, indexLookup, lookupA, namedManifests]
  | append_singleton front e ih =>
    intro hdist
    have hsplit : namedManifests (front ++ [e]) = namedManifests front ++ namedManifests [e] := by
      unfold namedManifests
      rw [List.filterMap_append]
    rw [indexPackages_append_singleton, scanPackageDir_eq_entryKey]
    cases hk : entryKey e with
    | none =>
      have hone : namedManifests [e] = [] := by simp [namedManifests, List.filterMap, hk]
      rw [hsplit, hone, List.append_nil] at hdist ⊢
      exact ih hdist
    | some t =>
      obtain ⟨n', v', m'⟩ := t
      have hone : namedManifests [e] = [(n', v', m')] := by
        simp [namedManifests, List.filterMap, hk]
      rw [hsplit, hone] at hdist ⊢
      rw [List.pairwise_append] at hdist
      obtain ⟨hfront, -, hcross⟩ := hdist
      by_cases hn : n = n'
      · subst hn
        show indexLookup (dictInsert n _ (indexPackages front)) n v = some m ↔ _
        unfold indexLookup
        rw [lookupA_dictInsert_self]
        by_cases hv : v = v'
        · subst hv
          simp only [Option.some_bind, lookupA_dictInsert_self]
          constructor
          · intro h
            have hm : m' = m := Option.some_inj.1 h
            subst hm
            exact List.mem_append_right _ (List.mem_singleton.2 rfl)
          · intro h
            rcases List.mem_append.1 h with h | h
            · have := hcross _ h _ (List.mem_singleton.2 rfl)
              simp at this
            · have := List.mem_singleton.1 h
              have hm : m = m' := by
                have := congrArg (fun t : String × String × ParsedManifest => t.2.2) this
                simpa using this
              subst hm
              rfl
        · simp only [Option.some_bind]
          rw [lookupA_dictInsert_other v v' _ _ hv]
          have hold : lookupA v ((lookupA n (indexPackages front)).getD []) =
              indexLookup (indexPackages front) n v := by
            cases hlk : lookupA n (indexPackages front) <;> simp [indexLookup, hlk, lookupA]
          rw [hold, ih hfront]
          constructor
          · intro h
            exact List.mem_append_left _ h
          · intro h
            rcases List.mem_append.1 h with h | h
            · exact h
            · have := List.mem_singleton.1 h
              have : v = v' := by
                have := congrArg (fun t : String × String × ParsedManifest => t.2.1) this
                simpa using this
              exact absurd this hv
      · show indexLookup (dictInsert n' _ (indexPackages front)) n v = some m ↔ _
        unfold indexLookup
        rw [lookupA_dictInsert_other n n' _ _ hn]
        have : (lookupA n (indexPackages front)).bind (fun vs => lookupA v vs) =
            indexLookup (indexPackages front) n v := rfl
        rw [this, ih hfront]
        constructor
        · intro h
          exact List.mem_append_left _ h
        · intro h
          rcases List.mem_append.1 h with h | h
          · exact h
          · have := List.mem_singleton.1 h
            have : n = n' := by
              have := congrArg (fun t : String × String × ParsedManifest => t.1) this
              simpa using this
            exact absurd this hn

/-- C3 (counterexample): a manifest can parse successfully yet be
absent from the rebuilt index — the one of `emptyNameRepo` parses but
carries an empty `name`, and the rebuilt `packages` map is empty, so
the index does not contain exactly the successfully parsed manifests.
(The stale pre-existing index entry is nevertheless replaced, as the
rebuilt file shows.) -/
theorem c3_counterexample :
    emptyNameEntry.manifest = some (ManifestFileContent.parsed emptyNameManifest) ∧
    emptyNameEntry.isDir = true ∧
    generate_repository_index emptyNameRepo =
      some { emptyNameRepo with
             indexFile := some (IndexFileState.validJson indexFieldKeys []) } := by
  decide

/-- C3 (amended): after a rebuild the written index holds exactly the
manifests that parsed successfully *and carry a non-empty name* —
assuming, as the one-version-per-directory convention provides, that
no two of them share the same `(name, version)` pair, each appears
exactly once under its name and version and nothing else appears — and
the index file is written as a full replacement whose content is
independent of the previous index, so stale entries never survive. -/
theorem c3_index_rebuild_exact (st : RepoState)
    (hroot : st.rootExists = true) (hpkgs : st.packagesDirExists = true)
    (hdist : (namedManifests st.packages).Pairwise (fun a b => a.1 ≠ b.1 ∨ a.2.1 ≠ b.2.1)) :
    generate_repository_index st =
      some { st with
             indexFile := some (IndexFileState.validJson indexFieldKeys
                             (indexPackages st.packages)) } ∧
    (∀ n v m, indexLookup (indexPackages st.packages) n v = some m ↔
      (n, v, m) ∈ namedManifests st.packages) ∧
    (∀ old, generate_repository_index { st with indexFile := old } =
      some { st with
             indexFile := some (IndexFileState.validJson indexFieldKeys
                             (indexPackages st.packages)) }) := by
  refine ⟨?_, ?_, ?_⟩
  · simp [generate_repository_index, hroot, hpkgs]
  · intro n v m
    exact indexLookup_indexPackages st.packages n v m hdist
  · intro old
    simp [generate_repository_index, hroot, hpkgs]

/-- Witness for C3: the repository produced by packaging the
end-to-end item, whose single manifest is indexed exactly once. -/
theorem c3_witness :
    (coolPropRepoAfterCreate.rootExists = true ∧
     coolPropRepoAfterCreate.packagesDirExists = true ∧
     (namedManifests coolPropRepoAfterCreate.packages).Pairwise
       (fun a b => a.1 ≠ b.1 ∨ a.2.1 ≠ b.2.1)) ∧
    (generate_repository_index coolPropRepoAfterCreate =
      some { coolPropRepoAfterCreate with
             indexFile := some (IndexFileState.validJson indexFieldKeys
                             (indexPackages coolPropRepoAfterCreate.packages)) } ∧
     (∀ n v m, indexLookup (indexPackages coolPropRepoAfterCreate.packages) n v = some m ↔
       (n, v, m) ∈ namedManifests coolPropRepoAfterCreate.packages) ∧
     (∀ old, generate_repository_index { coolPropRepoAfterCreate with indexFile := old } =
       some { coolPropRepoAfterCreate with
              indexFile := some (IndexFileState.validJson indexFieldKeys
                              (indexPackages coolPropRepoAfterCreate.packages)) })) :=
  ⟨⟨rfl, rfl, by decide⟩,
   c3_index_rebuild_exact coolPropRepoAfterCreate rfl rfl
     (by decide)⟩

/-! ## C4 -/

theorem dbLookup_update_package_info (db : Db) (id : String) (r : Item)
    (p v : Option String) (f : Bool)
    (h : dbLookup db id = some r) :
    dbLookup (update_package_info db id p v f) id =
      some { r with package_id := p, package_version := v, is_packaged := f } := by
  induction db with
  | nil => simp [dbLookup] at h
  | cons a rest ih =>
    by_cases ha : (a.item_id == id) = true
    · have har : a = r := by
        unfold dbLookup at h
        rw [List.find?_cons_of_pos (p := fun x : Item => x.item_id == id) _ ha] at h
        exact Option.some_inj.1 h
      subst har
      unfold update_package_info dbLookup
      rw [if_pos ha]
      exact List.find?_cons_of_pos (p := fun x : Item => x.item_id == id) _ ha
    · have h' : dbLookup rest id = some r := by
        unfold dbLookup at h ⊢
        rwa [List.find?_cons_of_neg (p := fun x : Item => x.item_id == id) _ ha] at h
      unfold update_package_info dbLookup
      rw [if_neg ha, List.find?_cons_of_neg (p := fun x : Item => x.item_id == id) _ ha]
      exact ih h'

theorem update_package_info_twice (db : Db) (id : String)
    (p1 v1 : Option String) (f1 : Bool) (p2 v2 : Option String) (f2 : Bool) :
    update_package_info (update_package_info db id p1 v1 f1) id p2 v2 f2 =
      update_package_info db id p2 v2 f2 := by
  induction db with
  | nil => rfl
  | cons a rest ih =>
    by_cases ha : (a.item_id == id) = true
    · simp [update_package_info, ha]
    · simp [update_package_info, ha, ih]

theorem filter_of_findPackage_none (l : List PkgDirEntry) (pid : String)
    (h : findPackage l pid = none) :
    l.filter (fun p => !(p.name == pid)) = l := by
  rw [List.filter_eq_self]
  intro a ha
  have := List.find?_eq_none.1 h a ha
  simp only [Bool.not_eq_eq_eq_not, Bool.not_true]
  exact Bool.not_eq_true _ ▸ (by simpa using this)

theorem com_append_ne_empty (a b c : String) :
    ("com." ++ a ++ "." ++ b ++ "." ++ c) ≠ "" := by
  intro h
  have hd := congrArg String.data h
  simp only [String.data_append] at hd
  simp at hd

theorem generate_package_id_ne_empty (item : Item) : generate_package_id item ≠ "" := by
  cases hcr : item.creator <;> simp only [generate_package_id, hcr] <;>
    apply com_append_ne_empty

/-- C4: starting from a database that holds the item and a repository
with no directory for the item's identifier yet, `packageItem` /
`unpackageItem` / `packageItem` yields exactly the state (filesystem
and database alike, return value included) of a single `packageItem`
call; the package directory exists after the full sequence and does
not exist after the middle step. -/
theorem c4_package_unpackage_package_roundtrip (it : Item) (st : RepoState) (db : Db)
    (hdb : dbLookup db it.item_id = some it)
    (hdir : findPackage st.packages (generate_package_id it) = none) :
    (roundTrip it st db).2.2 = (roundTrip it st db).1 ∧
    findPackage (roundTrip it st db).2.2.st.packages (generate_package_id it) ≠ none ∧
    findPackage (roundTrip it st db).2.1.st.packages (generate_package_id it) = none := by
  have hpid : ¬ generate_package_id it = "" := generate_package_id_ne_empty it
  have hA : package_item (some it) st db =
      ⟨it.title.isSome,
       { rootExists := true, packagesDirExists := true,
         packages := st.packages ++ [freshPackageEntry it (generate_package_id it)],
         indexFile := some (IndexFileState.validJson indexFieldKeys
           (indexPackages (st.packages ++ [freshPackageEntry it (generate_package_id it)]))) },
       update_package_info db it.item_id (some (generate_package_id it)) (some "1.0.0") true⟩ := by
    simp [package_item, create_package_structure, generate_repository_index, hdir]
  have hlk1 : dbLookup (update_package_info db it.item_id (some (generate_package_id it))
        (some "1.0.0") true) it.item_id =
      some { it with
             package_id := some (generate_package_id it),
             package_version := some "1.0.0",
             is_packaged := true } :=
    dbLookup_update_package_info db it.item_id it _ _ _ hdb
  have hfindE : findPackage (st.packages ++ [freshPackageEntry it (generate_package_id it)])
        (generate_package_id it) = some (freshPackageEntry it (generate_package_id it)) := by
    rw [findPackage_append_of_none _ _ _ hdir]
    simp [findPackage, List.find?, freshPackageEntry]
  have hfilter : (st.packages ++ [freshPackageEntry it (generate_package_id it)]).filter
        (fun p => !(p.name == generate_package_id it)) = st.packages := by
    rw [List.filter_append, filter_of_findPackage_none _ _ hdir]
    simp [freshPackageEntry]
  have hB : unpackage_item
        (some { it with
                package_id := some (generate_package_id it),
                package_version := some "1.0.0",
                is_packaged := true })
        { rootExists := true, packagesDirExists := true,
          packages := st.packages ++ [freshPackageEntry it (generate_package_id it)],
          indexFile := some (IndexFileState.validJson indexFieldKeys
            (indexPackages (st.packages ++ [freshPackageEntry it (generate_package_id it)]))) }
        (update_package_info db it.item_id (some (generate_package_id it)) (some "1.0.0") true) =
      ⟨it.title.isSome,
       { rootExists := true, packagesDirExists := true,
         packages := st.packages,
         indexFile := some (IndexFileState.validJson indexFieldKeys
           (indexPackages st.packages)) },
       update_package_info db it.item_id none none false⟩ := by
    have hisdir : (freshPackageEntry it (generate_package_id it)).isDir = true := rfl
    simp only [unpackage_item, Option.getD_some, eq_false hpid, hfindE, hisdir, hfilter,
      generate_repository_index, update_package_info_twice]
    simp
  have hlk2 : dbLookup (update_package_info db it.item_id none none false) it.item_id =
      some { it with package_id := none, package_version := none, is_packaged := false } :=
    dbLookup_update_package_info db it.item_id it _ _ _ hdb
  have hgen : generate_package_id
      { it with package_id := none, package_version := none, is_packaged := false } =
      generate_package_id it := rfl
  have hfresh : freshPackageEntry
      { it with package_id := none, package_version := none, is_packaged := false }
      (generate_package_id it) = freshPackageEntry it (generate_package_id it) := rfl
  have hC : package_item
        (some { it with package_id := none, package_version := none, is_packaged := false })
        { rootExists := true, packagesDirExists := true,
          packages := st.packages,
          indexFile := some (IndexFileState.validJson indexFieldKeys
            (indexPackages st.packages)) }
        (update_package_info db it.item_id none none false) =
      ⟨it.title.isSome,
       { rootExists := true, packagesDirExists := true,
         packages := st.packages ++ [freshPackageEntry it (generate_package_id it)],
         indexFile := some (IndexFileState.validJson indexFieldKeys
           (indexPackages (st.packages ++ [freshPackageEntry it (generate_package_id it)]))) },
       update_package_info db it.item_id (some (generate_package_id it)) (some "1.0.0") true⟩ := by
    simp [package_item, create_package_structure, generate_repository_index,
      hgen, hfresh, hdir, update_package_info_twice]
  refine ⟨?_, ?_, ?_⟩
  · simp only [roundTrip, hA, hlk1, hB, hlk2, hC]
  · simp only [roundTrip, hA, hlk1, hB, hlk2, hC, hfindE]
    simp
  · simp only [roundTrip, hA, hlk1, hB, hlk2, hC]
    exact hdir

/-- Witness for C4: the end-to-end item on an empty repository and a
one-row database. -/
theorem c4_witness :
    (dbLookup [coolPropItem] coolPropItem.item_id = some coolPropItem ∧
     findPackage (({} : RepoState)).packages (generate_package_id coolPropItem) = none) ∧
    ((roundTrip coolPropItem {} [coolPropItem]).2.2 = (roundTrip coolPropItem {} [coolPropItem]).1 ∧
     findPackage (roundTrip coolPropItem {} [coolPropItem]).2.2.st.packages
       (generate_package_id coolPropItem) ≠ none ∧
     findPackage (roundTrip coolPropItem {} [coolPropItem]).2.1.st.packages
       (generate_package_id coolPropItem) = none) :=
  ⟨⟨by decide, rfl⟩,
   c4_package_unpackage_package_roundtrip coolPropItem {} [coolPropItem] (by decide) rfl⟩
